import Mathlib

/-!
# Say2Text: the history, selection and upload state of `VoiceToTextApp`

A shallow embedding of `src/src/App.jsx` (the React component `VoiceToTextApp`)
and of the three calls of `src/src/services/api.js` it uses.

* The six `useState` cells and the two data refs are fields of records.
* Every handler is a function from the state it runs on to the state it leaves,
  together with the list of effects (alerts, backend requests, recorder calls)
  it issued.  What the outside world answers (the backend, the microphone
  permission) is an explicit argument.
* An `async` handler is cut at its `await`: the part before it and the part
  after it are separate transitions of `step`, so other handlers can run in
  between, and a value read from the closure after the `await` is the value of
  the render the handler was created in.
* JavaScript numbers are IEEE-754 doubles: `fl64` rounds an exact rational to
  the nearest double, ties to even.
-/

namespace Say2Text

/-! ## Data model -/

/-- The record the backend returns: `{ _id, transcript, mimeType, size, createdAt }`. -/
structure Record where
  _id : String
  transcript : String
  mimeType : String
  size : Nat
  createdAt : Nat
  deriving DecidableEq, Repr

/-- Initial value of `text`, also written back by the reset paths (App.jsx:97). -/
def placeholder : String := "Your transcribed text will appear here..."

/-- Value of `text` while a submission is awaited (App.jsx:168). -/
def transcribing : String := "Transcribing... please wait..."

/-- The `useState` cells of `VoiceToTextApp` (App.jsx:97-102). -/
structure AppState where
  text : String
  isRecording : Bool
  isUploading : Bool
  uploadProgress : Int
  items : List Record
  selectedId : Option String
  deriving DecidableEq, Repr

/-- The state of the first render (the initial values of the `useState` calls). -/
def AppState.init : AppState :=
  { text := placeholder
    isRecording := false
    isUploading := false
    uploadProgress := 0
    items := []
    selectedId := none }

/-- What a handler does to the world outside the React state. -/
inductive Effect where
  | alert (msg : String)
  | consoleError
  | postTranscribe
  | getTranscriptions
  | deleteTranscription (id : String)
  | getUserMedia
  | recorderStart
  | recorderStop
  | tracksStop
  | stopPropagation
  deriving DecidableEq, Repr

/-- An effect that is a request to the backend (one of the calls of api.js). -/
def Effect.isBackendCall : Effect → Bool
  | .postTranscribe => true
  | .getTranscriptions => true
  | .deleteTranscription _ => true
  | _ => false

/-- The rejection of `uploadAudio`; `responseError` is `error?.response?.data?.error`
when that chain reaches a string. -/
structure UploadError where
  responseError : Option String
  deriving DecidableEq, Repr

/-- The progress event axios passes to `onUploadProgress`; `total` is `undefined`
when the length is not computable. -/
structure ProgressEvent where
  loaded : Nat
  total : Option Nat
  deriving DecidableEq, Repr

/-! ## JavaScript numbers -/

/-- Round to the nearest integer, ties to the even one. -/
def roundHalfEven (q : ℚ) : ℤ :=
  if Int.fract q < 1 / 2 then ⌊q⌋
  else if 1 / 2 < Int.fract q then ⌊q⌋ + 1
  else if ⌊q⌋ % 2 = 0 then ⌊q⌋ else ⌊q⌋ + 1

/-- The double nearest to a non-negative rational `q` (53-bit significand, ties
to even); `0` for `q ≤ 0`, which the callback meets only as `q = 0`.  The
exponent is not bounded, so this is the IEEE-754 result whenever that result is
a normal double, as it is for the quotient of two byte counts and for its
product with 100. -/
def fl64 (q : ℚ) : ℚ :=
  if q ≤ 0 then 0
  else (roundHalfEven (q / 2 ^ (Int.log 2 q - 52)) : ℚ) * 2 ^ (Int.log 2 q - 52)

/-- `Math.round`: the nearest integer, ties towards `+∞`. -/
def mathRound (q : ℚ) : ℤ := ⌊q + 1 / 2⌋

/-- The body of the `onUploadProgress` callback up to its `setUploadProgress`
(App.jsx:172-175): nothing when `total` is falsy (`undefined` or `0`), else
`Math.round((loaded / total) * 100)`. -/
def percent (ev : ProgressEvent) : Option Int :=
  match ev.total with
  | none => none
  | some 0 => none
  | some (t + 1) => some (mathRound (fl64 (fl64 ((ev.loaded : ℚ) / ((t + 1 : ℕ) : ℚ)) * 100)))

/-! ## Handlers -/

/-- The callback passed to `uploadAudio` (App.jsx:171-177). -/
def onUploadProgress (s : AppState) (ev : ProgressEvent) : AppState :=
  match percent ev with
  | none => s
  | some p => { s with uploadProgress := p }

/-- The values `setUploadProgress` receives over a sequence of progress events. -/
def reportedProgress (evs : List ProgressEvent) : List Int :=
  evs.filterMap percent

/-- `transcribeAudio` up to its `await` (App.jsx:166-171). -/
def transcribeAudioStart (s : AppState) : AppState × List Effect :=
  ({ s with isUploading := true, uploadProgress := 0, text := transcribing },
   [Effect.postTranscribe])

/-- The message of the alert of the `catch` of `transcribeAudio` (App.jsx:184):
`error?.response?.data?.error || "Upload/transcription failed"`. -/
def uploadErrorMessage (e : UploadError) : String :=
  match e.responseError with
  | none => "Upload/transcription failed"
  | some m => if m = "" then "Upload/transcription failed" else m

/-- `transcribeAudio` from the point where `uploadAudio` settles to its end
(App.jsx:179-189), run on the state current at that point. -/
def transcribeAudioSettle (s : AppState) (res : Except UploadError Record) :
    AppState × List Effect :=
  match res with
  | .ok data =>
      ({ s with items := data :: s.items, selectedId := some data._id,
                text := data.transcript, isUploading := false, uploadProgress := 0 }, [])
  | .error e =>
      ({ s with text := placeholder, isUploading := false, uploadProgress := 0 },
       [Effect.consoleError, Effect.alert (uploadErrorMessage e)])

/-- A whole `transcribeAudio` call (App.jsx:165-190): the start, the progress
events delivered while the request is awaited, and the settlement. -/
def transcribeAudio (s : AppState) (evs : List ProgressEvent)
    (res : Except UploadError Record) : AppState × List Effect :=
  let started := transcribeAudioStart s
  let settled := transcribeAudioSettle (evs.foldl onUploadProgress started.1) res
  (settled.1, started.2 ++ settled.2)

/-- `fetchTranscriptionHistory` after its `await` (App.jsx:115-120). -/
def fetchTranscriptionHistorySettle (s : AppState) (res : Except Unit (List Record)) :
    AppState × List Effect :=
  match res with
  | .ok data => ({ s with items := data }, [])
  | .error _ => (s, [Effect.consoleError, Effect.alert "Failed to load history"])

/-- `selectItem` (App.jsx:194-197). -/
def selectItem (s : AppState) (item : Record) : AppState :=
  { s with text := item.transcript, selectedId := some item._id }

/-- `deleteItem` after its `await` (App.jsx:203-211), run on the state `s`
current at that point.  `selectedId` is the variable of the closure: the
value of the render in which the handler was created, not a cell of `s`. -/
def deleteItemSettle (selectedId : Option String) (id : String) (res : Except Unit Unit)
    (s : AppState) : AppState × List Effect :=
  match res with
  | .ok _ =>
      let s1 := { s with items := s.items.filter (fun item => item._id != id) }
      (if selectedId = some id then { s1 with selectedId := none, text := placeholder } else s1,
       [])
  | .error _ => (s, [Effect.consoleError, Effect.alert "Delete failed"])

/-- A whole `deleteItem(id, e)` call with nothing running between the request
and its answer (App.jsx:199-212). -/
def deleteItem (s : AppState) (id : String) (res : Except Unit Unit) :
    AppState × List Effect :=
  let settled := deleteItemSettle s.selectedId id res s
  (settled.1, [Effect.stopPropagation, Effect.deleteTranscription id] ++ settled.2)

/-- `clearHistory` (App.jsx:214-218). -/
def clearHistory (s : AppState) : AppState × List Effect :=
  ({ s with items := [], selectedId := none, text := placeholder }, [])

/-! ## Recording -/

/-- A chunk of recorded audio or a chosen file, by its byte length. -/
structure Blob where
  size : Nat
  deriving DecidableEq, Repr

/-- A `MediaRecorder`: `recording` is true from `start()` to `stop()`. -/
structure MediaRecorder where
  recording : Bool
  deriving DecidableEq, Repr

/-- The component between two handlers: the state cells and the two data refs
(App.jsx:97-105). -/
structure Component where
  app : AppState
  mediaRecorderRef : Option MediaRecorder
  chunksRef : List Blob
  deriving DecidableEq, Repr

/-- The component at its first render. -/
def Component.init : Component :=
  { app := AppState.init, mediaRecorderRef := none, chunksRef := [] }

/-- `startRecording` after its `await` (App.jsx:136-154); `res` is the answer
of `getUserMedia`. -/
def startRecordingSettle (c : Component) (res : Except Unit Unit) :
    Component × List Effect :=
  match res with
  | .ok _ =>
      ({ c with mediaRecorderRef := some { recording := true }, chunksRef := [],
                app := { c.app with isRecording := true } },
       [Effect.recorderStart])
  | .error _ => (c, [Effect.consoleError, Effect.alert "Microphone access denied."])

/-- A whole `startRecording` call (App.jsx:133-155). -/
def startRecording (c : Component) (res : Except Unit Unit) : Component × List Effect :=
  let settled := startRecordingSettle c res
  (settled.1, [Effect.getUserMedia] ++ settled.2)

/-- `recorder.ondataavailable` (App.jsx:140-142). -/
def ondataavailable (c : Component) (data : Blob) : Component :=
  if 0 < data.size then { c with chunksRef := c.chunksRef ++ [data] } else c

/-- The `new Blob(chunksRef.current, ...)` of `recorder.onstop` (App.jsx:145). -/
def recordedBlob (c : Component) : Blob :=
  { size := (c.chunksRef.map Blob.size).sum }

/-- `stopRecording` (App.jsx:157-163).  The last component says whether
`stop()` was called on a recorder that was recording, which is when the
recorder fires `onstop`. -/
def stopRecording (c : Component) : Component × List Effect × Bool :=
  match c.mediaRecorderRef with
  | none => ({ c with app := { c.app with isRecording := false } }, [], false)
  | some r =>
      ({ c with mediaRecorderRef := some { recording := false },
                app := { c.app with isRecording := false } },
       [Effect.recorderStop, Effect.tracksStop], r.recording)

/-! ## The component as a transition system -/

/-- The component together with the asynchronous work it is waiting for. -/
structure Sys where
  view : Component
  /-- The `fetchTranscriptions` of the mount effect has not settled. -/
  historyPending : Bool
  /-- Calls of `startRecording` waiting for `getUserMedia`. -/
  micPending : Nat
  /-- Calls of `transcribeAudio` waiting for `uploadAudio`, by their payload. -/
  inFlight : List Blob
  /-- Calls of `deleteItem` waiting for `deleteTranscription`: the id, and the
  `selectedId` of the render whose handler was clicked. -/
  deletes : List (String × Option String)
  log : List Effect
  deriving DecidableEq, Repr

/-- The system after the first render and its mount effect (App.jsx:109-111). -/
def Sys.init : Sys :=
  { view := Component.init
    historyPending := true
    micPending := 0
    inFlight := []
    deletes := []
    log := [Effect.getTranscriptions] }

/-- What can happen: a user action on a rendered control, or the settlement of
an awaited call.  `clickStop last` carries the data the recorder hands to
`ondataavailable` when `stop()` is called, before it fires `onstop`; the `k` of
a settlement is the position of the call among those awaited. -/
inductive Event where
  | historyLoaded (data : List Record)
  | historyFailed
  | pickFile (file : Blob)
  | clickStart
  | micGranted
  | micDenied
  | dataAvailable (data : Blob)
  | clickStop (last : Blob)
  | uploadProgress (ev : ProgressEvent)
  | uploadDone (k : Nat) (data : Record)
  | uploadFailed (k : Nat) (e : UploadError)
  | clickItem (i : Nat)
  | clickDelete (i : Nat)
  | deleteDone (k : Nat)
  | deleteFailed (k : Nat)
  | clickClear
  deriving DecidableEq, Repr

/-- Replace the state cells of the system. -/
def Sys.setApp (σ : Sys) (a : AppState) : Sys :=
  { σ with view := { σ.view with app := a } }

/-- Start a `transcribeAudio` call on `payload`. -/
def Sys.submit (σ : Sys) (payload : Blob) : Sys :=
  let r := transcribeAudioStart σ.view.app
  { σ.setApp r.1 with inFlight := σ.inFlight ++ [payload], log := σ.log ++ r.2 }

/-- One transition; `none` when the event cannot happen in `σ`: the control is
not rendered or is disabled (App.jsx:248-271, 335-339, 347-368), or no such
call is awaited. -/
def step (σ : Sys) : Event → Option Sys
  | .historyLoaded data =>
      if σ.historyPending then
        let r := fetchTranscriptionHistorySettle σ.view.app (.ok data)
        some { σ.setApp r.1 with historyPending := false, log := σ.log ++ r.2 }
      else none
  | .historyFailed =>
      if σ.historyPending then
        let r := fetchTranscriptionHistorySettle σ.view.app (.error ())
        some { σ.setApp r.1 with historyPending := false, log := σ.log ++ r.2 }
      else none
  | .pickFile file =>
      if σ.view.app.isUploading then none else some (σ.submit file)
  | .clickStart =>
      if σ.view.app.isRecording || σ.view.app.isUploading then none
      else some { σ with micPending := σ.micPending + 1, log := σ.log ++ [Effect.getUserMedia] }
  | .micGranted =>
      match σ.micPending with
      | 0 => none
      | n + 1 =>
          let r := startRecordingSettle σ.view (.ok ())
          some { σ with view := r.1, micPending := n, log := σ.log ++ r.2 }
  | .micDenied =>
      match σ.micPending with
      | 0 => none
      | n + 1 =>
          let r := startRecordingSettle σ.view (.error ())
          some { σ with view := r.1, micPending := n, log := σ.log ++ r.2 }
  | .dataAvailable data =>
      match σ.view.mediaRecorderRef with
      | some { recording := true } => some { σ with view := ondataavailable σ.view data }
      | _ => none
  | .clickStop last =>
      if σ.view.app.isRecording then
        let r := stopRecording σ.view
        let σ1 := { σ with view := r.1, log := σ.log ++ r.2.1 }
        some (if r.2.2 then
                let σ2 := { σ1 with view := ondataavailable σ1.view last }
                σ2.submit (recordedBlob σ2.view)
              else σ1)
      else none
  | .uploadProgress ev =>
      if σ.inFlight.isEmpty then none
      else some (σ.setApp (onUploadProgress σ.view.app ev))
  | .uploadDone k data =>
      match σ.inFlight.get? k with
      | none => none
      | some _ =>
          let r := transcribeAudioSettle σ.view.app (.ok data)
          some { σ.setApp r.1 with inFlight := σ.inFlight.eraseIdx k, log := σ.log ++ r.2 }
  | .uploadFailed k e =>
      match σ.inFlight.get? k with
      | none => none
      | some _ =>
          let r := transcribeAudioSettle σ.view.app (.error e)
          some { σ.setApp r.1 with inFlight := σ.inFlight.eraseIdx k, log := σ.log ++ r.2 }
  | .clickItem i =>
      match σ.view.app.items.get? i with
      | none => none
      | some item => some (σ.setApp (selectItem σ.view.app item))
  | .clickDelete i =>
      match σ.view.app.items.get? i with
      | none => none
      | some item =>
          some { σ with deletes := σ.deletes ++ [(item._id, σ.view.app.selectedId)],
                        log := σ.log ++ [Effect.stopPropagation,
                                         Effect.deleteTranscription item._id] }
  | .deleteDone k =>
      match σ.deletes.get? k with
      | none => none
      | some (id, captured) =>
          let r := deleteItemSettle captured id (.ok ()) σ.view.app
          some { σ.setApp r.1 with deletes := σ.deletes.eraseIdx k, log := σ.log ++ r.2 }
  | .deleteFailed k =>
      match σ.deletes.get? k with
      | none => none
      | some (id, captured) =>
          let r := deleteItemSettle captured id (.error ()) σ.view.app
          some { σ.setApp r.1 with deletes := σ.deletes.eraseIdx k, log := σ.log ++ r.2 }
  | .clickClear =>
      if σ.view.app.items.isEmpty then none
      else
        let r := clearHistory σ.view.app
        some { σ.setApp r.1 with log := σ.log ++ r.2 }

/-- Run a sequence of events; `none` as soon as one of them cannot happen. -/
def run (σ : Sys) : List Event → Option Sys
  | [] => some σ
  | e :: es => (step σ e).bind (fun σ1 => run σ1 es)

/-- The selection invariant of the data model: `selectedId` is `null` or the
`_id` of a record of `items`. -/
def selectionValid (s : AppState) : Prop :=
  ∀ id, s.selectedId = some id → ∃ r ∈ s.items, r._id = id

/-! ## Concrete data used in the examples -/

/-- The record of the example of the specification. -/
def recHello : Record :=
  { _id := "1", transcript := "hello", mimeType := "audio/webm", size := 3, createdAt := 0 }

/-- A second record. -/
def recWorld : Record :=
  { _id := "2", transcript := "world", mimeType := "audio/webm", size := 5, createdAt := 1 }

/-- A state with two records in its history, the first one selected and shown. -/
def stTwo : AppState :=
  { text := "hello", isRecording := false, isUploading := false, uploadProgress := 0,
    items := [recHello, recWorld], selectedId := some "1" }

/-- Progress events of an upload of 7 bytes. -/
def evsSeven : List ProgressEvent :=
  [{ loaded := 0, total := some 7 }, { loaded := 3, total := some 7 },
   { loaded := 7, total := some 7 }]

/-! ## Auxiliary lemmas -/

/-! ### Rounding -/

theorem floor_le_roundHalfEven (q : ℚ) : ⌊q⌋ ≤ roundHalfEven q := by
  unfold roundHalfEven
  split_ifs <;> omega

theorem roundHalfEven_le_floor_add_one (q : ℚ) : roundHalfEven q ≤ ⌊q⌋ + 1 := by
  unfold roundHalfEven
  split_ifs <;> omega

theorem roundHalfEven_intCast (n : ℤ) : roundHalfEven (n : ℚ) = n := by
  simp [roundHalfEven]

theorem roundHalfEven_mono {a b : ℚ} (h : a ≤ b) : roundHalfEven a ≤ roundHalfEven b := by
  rcases (Int.floor_mono h).lt_or_eq with hlt | heq
  · calc roundHalfEven a ≤ ⌊a⌋ + 1 := roundHalfEven_le_floor_add_one a
      _ ≤ ⌊b⌋ := hlt
      _ ≤ roundHalfEven b := floor_le_roundHalfEven b
  · have hf : Int.fract a ≤ Int.fract b := by
      unfold Int.fract
      rw [heq]
      linarith
    unfold roundHalfEven
    rw [heq]
    split_ifs <;> first | omega | linarith

theorem mathRound_mono {a b : ℚ} (h : a ≤ b) : mathRound a ≤ mathRound b :=
  Int.floor_mono (by linarith)

theorem ulp_pos (e : ℤ) : (0 : ℚ) < 2 ^ (e - 52) := by positivity

theorem two_zpow_split (e : ℤ) : (2 : ℚ) ^ e = 2 ^ (52 : ℕ) * 2 ^ (e - 52) := by
  rw [← zpow_natCast, ← zpow_add₀ (by norm_num : (2 : ℚ) ≠ 0)]
  congr 1
  omega

theorem two_zpow_succ_split (e : ℤ) : (2 : ℚ) ^ (e + 1) = 2 ^ (53 : ℕ) * 2 ^ (e - 52) := by
  rw [← zpow_natCast, ← zpow_add₀ (by norm_num : (2 : ℚ) ≠ 0)]
  congr 1
  omega

theorem fl64_of_pos {q : ℚ} (hq : 0 < q) :
    fl64 q = (roundHalfEven (q / 2 ^ (Int.log 2 q - 52)) : ℚ) * 2 ^ (Int.log 2 q - 52) := by
  unfold fl64
  rw [if_neg (not_le.mpr hq)]

theorem le_fl64 {q : ℚ} (hq : 0 < q) : (2 : ℚ) ^ Int.log 2 q ≤ fl64 q := by
  have hu := ulp_pos (Int.log 2 q)
  have h1 : (2 : ℚ) ^ Int.log 2 q ≤ q := by
    have := Int.zpow_log_le_self (R := ℚ) (b := 2) (by norm_num) hq
    simpa using this
  have h2 : (((2 ^ 52 : ℤ)) : ℚ) ≤ q / 2 ^ (Int.log 2 q - 52) := by
    rw [le_div_iff₀ hu]
    rw [two_zpow_split] at h1
    push_cast
    exact h1
  have h3 := roundHalfEven_mono h2
  rw [roundHalfEven_intCast] at h3
  have h4 : ((2 ^ 52 : ℤ) : ℚ) ≤ (roundHalfEven (q / 2 ^ (Int.log 2 q - 52)) : ℚ) := by
    exact_mod_cast h3
  rw [fl64_of_pos hq, two_zpow_split]
  push_cast at h4
  exact mul_le_mul_of_nonneg_right h4 hu.le

theorem fl64_le {q : ℚ} (hq : 0 < q) : fl64 q ≤ (2 : ℚ) ^ (Int.log 2 q + 1) := by
  have hu := ulp_pos (Int.log 2 q)
  have h1 : q < (2 : ℚ) ^ (Int.log 2 q + 1) := by
    have := Int.lt_zpow_succ_log_self (R := ℚ) (b := 2) (by norm_num) q
    simpa using this
  have h2 : q / 2 ^ (Int.log 2 q - 52) ≤ (((2 ^ 53 : ℤ)) : ℚ) := by
    rw [div_le_iff₀ hu]
    rw [two_zpow_succ_split] at h1
    push_cast
    exact h1.le
  have h3 := roundHalfEven_mono h2
  rw [roundHalfEven_intCast] at h3
  have h4 : (roundHalfEven (q / 2 ^ (Int.log 2 q - 52)) : ℚ) ≤ ((2 ^ 53 : ℤ) : ℚ) := by
    exact_mod_cast h3
  rw [fl64_of_pos hq, two_zpow_succ_split]
  push_cast at h4
  exact mul_le_mul_of_nonneg_right h4 hu.le

theorem fl64_nonneg (q : ℚ) : 0 ≤ fl64 q := by
  rcases le_or_lt q 0 with h | h
  · simp [fl64, h]
  · exact le_trans (by positivity) (le_fl64 h)

theorem fl64_mono {a b : ℚ} (h : a ≤ b) : fl64 a ≤ fl64 b := by
  rcases le_or_lt a 0 with ha | ha
  · have : fl64 a = 0 := by simp [fl64, ha]
    rw [this]
    exact fl64_nonneg b
  · have hb : 0 < b := lt_of_lt_of_le ha h
    rcases (Int.log_mono_right (b := 2) ha h).lt_or_eq with hlt | heq
    · calc fl64 a ≤ (2 : ℚ) ^ (Int.log 2 a + 1) := fl64_le ha
        _ ≤ (2 : ℚ) ^ Int.log 2 b := zpow_le_zpow_right₀ (by norm_num) hlt
        _ ≤ fl64 b := le_fl64 hb
    · rw [fl64_of_pos ha, fl64_of_pos hb, heq]
      have hu := ulp_pos (Int.log 2 b)
      have hdiv : a / 2 ^ (Int.log 2 b - 52) ≤ b / 2 ^ (Int.log 2 b - 52) :=
        div_le_div_of_nonneg_right h hu.le
      have := roundHalfEven_mono hdiv
      exact mul_le_mul_of_nonneg_right (by exact_mod_cast this) hu.le

theorem fl64_one : fl64 1 = 1 := by
  rw [fl64_of_pos (by norm_num), Int.log_one_right]
  have : (1 : ℚ) / 2 ^ ((0 : ℤ) - 52) = ((2 ^ 52 : ℤ) : ℚ) := by norm_num
  rw [this, roundHalfEven_intCast]
  norm_num

theorem log_hundred : Int.log 2 (100 : ℚ) = 6 := by
  have h := Int.log_natCast (R := ℚ) 2 100
  have h6 : Nat.log 2 100 = 6 := by
    simp [Nat.log]
  rw [h6] at h
  exact_mod_cast h

theorem fl64_hundred : fl64 100 = 100 := by
  rw [fl64_of_pos (by norm_num), log_hundred]
  have : (100 : ℚ) / 2 ^ ((6 : ℤ) - 52) = ((100 * 2 ^ 46 : ℤ) : ℚ) := by norm_num
  rw [this, roundHalfEven_intCast]
  norm_num

/-! ### Progress events and state -/

theorem onUploadProgress_items (s : AppState) (ev : ProgressEvent) :
    (onUploadProgress s ev).items = s.items := by
  unfold onUploadProgress
  cases percent ev <;> rfl

theorem foldl_onUploadProgress_items (evs : List ProgressEvent) (s : AppState) :
    (evs.foldl onUploadProgress s).items = s.items := by
  induction evs generalizing s with
  | nil => rfl
  | cons ev evs ih => rw [List.foldl_cons, ih, onUploadProgress_items]

/-! ## Submission -/

/-- C1: after a successful `transcribeAudio`, whatever the state it started
from and whatever progress events arrived, `items` is the returned record
followed by the previous items, `selectedId` is its `_id` and `text` its
transcript; from the initial state the record of the example gives text
"hello", items `[that record]` and selection "1". -/
theorem transcribeAudio_success_prepends_and_selects :
    (∀ (s : AppState) (evs : List ProgressEvent) (r : Record),
      (transcribeAudio s evs (.ok r)).1.items = r :: s.items ∧
      (transcribeAudio s evs (.ok r)).1.selectedId = some r._id ∧
      (transcribeAudio s evs (.ok r)).1.text = r.transcript) ∧
    (transcribeAudio AppState.init [] (.ok recHello)).1.text = "hello" ∧
    (transcribeAudio AppState.init [] (.ok recHello)).1.items = [recHello] ∧
    (transcribeAudio AppState.init [] (.ok recHello)).1.selectedId = some "1" := by
  refine ⟨fun s evs r => ⟨?_, rfl, rfl⟩, rfl, rfl, rfl⟩
  show r :: (evs.foldl onUploadProgress (transcribeAudioStart s).1).items = r :: s.items
  rw [foldl_onUploadProgress_items]
  rfl

/-- C6: after `transcribeAudio`, whether `uploadAudio` resolved with a record
or rejected with an error, `isUploading` is false and `uploadProgress` is 0. -/
theorem transcribeAudio_resets_upload_state (s : AppState) (evs : List ProgressEvent)
    (res : Except UploadError Record) :
    (transcribeAudio s evs res).1.isUploading = false ∧
    (transcribeAudio s evs res).1.uploadProgress = 0 := by
  cases res <;> exact ⟨rfl, rfl⟩

/-! ## Progress -/

theorem percent_of_total_pos {ev : ProgressEvent} {S : ℕ} (hS : 0 < S)
    (h : ev.total = some S) :
    percent ev = some (mathRound (fl64 (fl64 ((ev.loaded : ℚ) / (S : ℚ)) * 100))) := by
  obtain ⟨t, rfl⟩ := Nat.exists_eq_succ_of_ne_zero hS.ne'
  simp only [percent, h]

theorem percent_mono {S a b : ℕ} (hab : a ≤ b) :
    mathRound (fl64 (fl64 ((a : ℚ) / (S : ℚ)) * 100)) ≤
      mathRound (fl64 (fl64 ((b : ℚ) / (S : ℚ)) * 100)) := by
  have hS : (0 : ℚ) ≤ (S : ℚ) := Nat.cast_nonneg S
  have hq : (a : ℚ) / (S : ℚ) ≤ (b : ℚ) / (S : ℚ) :=
    div_le_div_of_nonneg_right (by exact_mod_cast hab) hS
  have h100 : fl64 ((a : ℚ) / (S : ℚ)) * 100 ≤ fl64 ((b : ℚ) / (S : ℚ)) * 100 :=
    mul_le_mul_of_nonneg_right (fl64_mono hq) (by norm_num)
  exact mathRound_mono (fl64_mono h100)

theorem percent_complete {S : ℕ} (hS : 0 < S) :
    mathRound (fl64 (fl64 ((S : ℚ) / (S : ℚ)) * 100)) = 100 := by
  have hS0 : (S : ℚ) ≠ 0 := by exact_mod_cast hS.ne'
  rw [div_self hS0, fl64_one, one_mul, fl64_hundred]
  norm_num [mathRound]

theorem reportedProgress_eq_map {S : ℕ} (hS : 0 < S) (evs : List ProgressEvent)
    (htot : ∀ ev ∈ evs, ev.total = some S) :
    reportedProgress evs =
      evs.map (fun ev => mathRound (fl64 (fl64 ((ev.loaded : ℚ) / (S : ℚ)) * 100))) := by
  induction evs with
  | nil => rfl
  | cons ev evs ih =>
      have hev := percent_of_total_pos hS (htot ev (List.mem_cons_self ev evs))
      have ih1 := ih (fun e he => htot e (List.mem_cons_of_mem ev he))
      unfold reportedProgress at ih1 ⊢
      rw [List.filterMap_cons, hev, ih1, List.map_cons]

/-- C7 as stated fails for `S = 0`: the single event `loaded = 0, total = 0`
is a non-decreasing sequence whose last event has `loaded = S`, and the
callback's guard on a falsy `total` skips it, so no value is reported and there
is no last value 100. -/
theorem progress_nothing_reported_for_zero_total :
    ¬ ∀ (S : ℕ) (evs : List ProgressEvent),
        (∀ ev ∈ evs, ev.total = some S) →
        (evs.map ProgressEvent.loaded).Pairwise (· ≤ ·) →
        (evs.map ProgressEvent.loaded).getLast? = some S →
        (reportedProgress evs).Pairwise (· ≤ ·) ∧
          (reportedProgress evs).getLast? = some 100 := by
  intro h
  have h0 := (h 0 [{ loaded := 0, total := some 0 }] (by decide) (by decide) (by decide)).2
  have hr : reportedProgress [{ loaded := 0, total := some 0 }] = [] := rfl
  rw [hr] at h0
  exact absurd h0 (by decide)

/-- C7, amended: for a payload of total size `S > 0` and progress events with
`total = S`, non-decreasing `loaded` and last `loaded = S`, the values the
callback reports, `Math.round((loaded / S) * 100)` in double arithmetic, are
non-decreasing and the last one is 100. -/
theorem progress_monotone_ends_at_100 (S : ℕ) (evs : List ProgressEvent)
    (hS : 0 < S)
    (htot : ∀ ev ∈ evs, ev.total = some S)
    (hmono : (evs.map ProgressEvent.loaded).Pairwise (· ≤ ·))
    (hlast : (evs.map ProgressEvent.loaded).getLast? = some S) :
    (reportedProgress evs).Pairwise (· ≤ ·) ∧
      (reportedProgress evs).getLast? = some 100 := by
  rw [reportedProgress_eq_map hS evs htot]
  constructor
  · rw [List.pairwise_map] at hmono ⊢
    exact hmono.imp (fun hab => percent_mono hab)
  · rw [List.getLast?_map] at hlast ⊢
    cases hl : evs.getLast? with
    | none => rw [hl] at hlast; exact absurd hlast (by simp)
    | some ev =>
        rw [hl] at hlast
        have hev : ev.loaded = S := by simpa using hlast
        simp only [Option.map_some', hev, percent_complete hS]

theorem progress_monotone_ends_at_100_witness :
    0 < 7 ∧ (∀ ev ∈ evsSeven, ev.total = some 7) ∧
    (evsSeven.map ProgressEvent.loaded).Pairwise (· ≤ ·) ∧
    (evsSeven.map ProgressEvent.loaded).getLast? = some 7 ∧
    (reportedProgress evsSeven).Pairwise (· ≤ ·) ∧
    (reportedProgress evsSeven).getLast? = some 100 :=
  ⟨by decide, by decide, by decide, by decide,
   progress_monotone_ends_at_100 7 evsSeven (by decide) (by decide) (by decide) (by decide)⟩

/-! ## Deleting -/

/-- C3: deleting the selected record, when the backend call succeeds, leaves
no selection, the placeholder as text, and no record with that id in `items`. -/
theorem deleteItem_selected_resets (s : AppState) (id : String)
    (h : s.selectedId = some id) :
    (deleteItem s id (.ok ())).1.selectedId = none ∧
    (deleteItem s id (.ok ())).1.text = placeholder ∧
    ∀ r ∈ (deleteItem s id (.ok ())).1.items, r._id ≠ id := by
  simp only [deleteItem, deleteItemSettle, h, if_true]
  refine ⟨trivial, trivial, ?_⟩
  intro r hr
  simpa using (List.mem_filter.mp hr).2

theorem deleteItem_selected_resets_witness :
    stTwo.selectedId = some "1" ∧
    (deleteItem stTwo "1" (.ok ())).1.selectedId = none ∧
    (deleteItem stTwo "1" (.ok ())).1.text = placeholder ∧
    ∀ r ∈ (deleteItem stTwo "1" (.ok ())).1.items, r._id ≠ "1" :=
  ⟨rfl, deleteItem_selected_resets stTwo "1" rfl⟩

/-- C4: deleting a record that is not the selected one (also when nothing is
selected), when the backend call succeeds, leaves `selectedId` and `text` as
they were; the records with another id are the same before and after, in the
same order, each of them is still in `items`, and `items` gained nothing. -/
theorem deleteItem_other_keeps_selection (s : AppState) (id : String)
    (h : s.selectedId ≠ some id) :
    (deleteItem s id (.ok ())).1.selectedId = s.selectedId ∧
    (deleteItem s id (.ok ())).1.text = s.text ∧
    (deleteItem s id (.ok ())).1.items.filter (fun r => decide (r._id ≠ id)) =
      s.items.filter (fun r => decide (r._id ≠ id)) ∧
    (∀ r ∈ s.items, r._id ≠ id → r ∈ (deleteItem s id (.ok ())).1.items) ∧
    (deleteItem s id (.ok ())).1.items.Sublist s.items := by
  simp only [deleteItem, deleteItemSettle, h, if_false]
  refine ⟨trivial, trivial, ?_, ?_, ?_⟩
  · rw [List.filter_filter]
    congr 1
    funext r
    by_cases hr : r._id = id <;> simp [hr]
  · intro r hr hne
    exact List.mem_filter.mpr ⟨hr, by simpa using hne⟩
  · exact List.filter_sublist _

theorem deleteItem_other_keeps_selection_witness :
    stTwo.selectedId ≠ some "2" ∧
    (deleteItem stTwo "2" (.ok ())).1.selectedId = stTwo.selectedId ∧
    (deleteItem stTwo "2" (.ok ())).1.text = stTwo.text ∧
    (deleteItem stTwo "2" (.ok ())).1.items.filter (fun r => decide (r._id ≠ "2")) =
      stTwo.items.filter (fun r => decide (r._id ≠ "2")) ∧
    (∀ r ∈ stTwo.items, r._id ≠ "2" → r ∈ (deleteItem stTwo "2" (.ok ())).1.items) ∧
    (deleteItem stTwo "2" (.ok ())).1.items.Sublist stTwo.items :=
  ⟨by decide, deleteItem_other_keeps_selection stTwo "2" (by decide)⟩

/-- C8: when the backend delete call fails, `deleteItem` leaves `items`,
`selectedId` and `text` (the whole state) as they were, and the failure is
reported with the alert "Delete failed". -/
theorem deleteItem_failure_keeps_state (s : AppState) (id : String) :
    (deleteItem s id (.error ())).1.items = s.items ∧
    (deleteItem s id (.error ())).1.selectedId = s.selectedId ∧
    (deleteItem s id (.error ())).1.text = s.text ∧
    (deleteItem s id (.error ())).1 = s ∧
    Effect.alert "Delete failed" ∈ (deleteItem s id (.error ())).2 := by
  refine ⟨rfl, rfl, rfl, rfl, ?_⟩
  simp [deleteItem, deleteItemSettle]

/-! ## Clearing -/

/-- C9: `clearHistory` leaves `items` empty, no selection and the placeholder
as text, and issues no backend call: it has no effect outside the state cells,
and its result is a function of those cells alone. -/
theorem clearHistory_empties_locally (s : AppState) :
    (clearHistory s).1.items = [] ∧
    (clearHistory s).1.selectedId = none ∧
    (clearHistory s).1.text = placeholder ∧
    (clearHistory s).2 = [] ∧
    (clearHistory s).2.all (fun e => !e.isBackendCall) = true :=
  ⟨rfl, rfl, rfl, rfl, rfl⟩

/-! ## Recording -/

/-- C10: when `getUserMedia` rejects, `startRecording` called while not
recording leaves `isRecording` false, starts no recorder (no `start()` call,
the recorder ref and the whole component unchanged) and shows the alert
"Microphone access denied.". -/
theorem startRecording_denied_stays_idle (c : Component) (h : c.app.isRecording = false) :
    (startRecording c (.error ())).1.app.isRecording = false ∧
    Effect.recorderStart ∉ (startRecording c (.error ())).2 ∧
    (startRecording c (.error ())).1.mediaRecorderRef = c.mediaRecorderRef ∧
    (startRecording c (.error ())).1 = c ∧
    Effect.alert "Microphone access denied." ∈ (startRecording c (.error ())).2 := by
  refine ⟨h, ?_, rfl, rfl, ?_⟩ <;> simp [startRecording, startRecordingSettle]

theorem startRecording_denied_stays_idle_witness :
    Component.init.app.isRecording = false ∧
    (startRecording Component.init (.error ())).1.app.isRecording = false ∧
    Effect.recorderStart ∉ (startRecording Component.init (.error ())).2 ∧
    (startRecording Component.init (.error ())).1.mediaRecorderRef =
      Component.init.mediaRecorderRef ∧
    (startRecording Component.init (.error ())).1 = Component.init ∧
    Effect.alert "Microphone access denied." ∈ (startRecording Component.init (.error ())).2 :=
  ⟨rfl, startRecording_denied_stays_idle Component.init rfl⟩

/-! ## The selection invariant, handler by handler

Each handler keeps `selectionValid` when it runs from its request to its end
with nothing in between. -/

theorem selectionValid_init : selectionValid AppState.init := by
  intro id h
  exact absurd h (by simp [AppState.init])

theorem selectionValid_transcribeAudio (s : AppState) (evs : List ProgressEvent)
    (res : Except UploadError Record) (h : selectionValid s) :
    selectionValid (transcribeAudio s evs res).1 := by
  have hsel : ∀ (l : List ProgressEvent) (t : AppState),
      (l.foldl onUploadProgress t).selectedId = t.selectedId := by
    intro l
    induction l with
    | nil => intro t; rfl
    | cons ev l ih =>
        intro t
        rw [List.foldl_cons, ih]
        unfold onUploadProgress
        cases percent ev <;> rfl
  cases res with
  | ok r =>
      intro id hid
      refine ⟨r, List.mem_cons_self _ _, ?_⟩
      have : some r._id = some id := hid
      exact Option.some.inj this
  | error e =>
      intro id hid
      have h1 : (transcribeAudio s evs (.error e)).1.selectedId = s.selectedId :=
        hsel evs (transcribeAudioStart s).1
      have h2 : (transcribeAudio s evs (.error e)).1.items = s.items :=
        foldl_onUploadProgress_items evs (transcribeAudioStart s).1
      rw [h1] at hid
      rw [h2]
      exact h id hid

theorem selectionValid_selectItem (s : AppState) (item : Record) (h : item ∈ s.items) :
    selectionValid (selectItem s item) := by
  intro id hid
  have : some item._id = some id := hid
  exact ⟨item, h, Option.some.inj this⟩

theorem selectionValid_deleteItem (s : AppState) (id : String) (res : Except Unit Unit)
    (h : selectionValid s) : selectionValid (deleteItem s id res).1 := by
  cases res with
  | error e => exact h
  | ok u =>
      by_cases hs : s.selectedId = some id
      · intro j hj
        simp [deleteItem, deleteItemSettle, hs] at hj
      · intro j hj
        simp only [deleteItem, deleteItemSettle, hs, if_false] at hj ⊢
        obtain ⟨r, hr, hrj⟩ := h j hj
        refine ⟨r, List.mem_filter.mpr ⟨hr, ?_⟩, hrj⟩
        have hne : r._id ≠ id := by
          intro hc
          exact hs (by rw [hj, ← hrj, hc])
        simpa using hne

theorem selectionValid_clearHistory (s : AppState) : selectionValid (clearHistory s).1 := by
  intro id h
  exact absurd h (by simp [clearHistory])

/-- A second run that breaks the invariant: a submission settles before the
history request of the mount effect, whose `setItems(data)` then replaces the
list the selected record was prepended to. -/
theorem late_history_load_drops_selected_record :
    ∃ σ, run Sys.init [.pickFile ⟨3⟩, .uploadDone 0 recHello, .historyLoaded []] = some σ ∧
      σ.view.app.selectedId = some "1" ∧ σ.view.app.items = [] :=
  ⟨_, rfl, rfl, rfl⟩

/-! ## The transition system -/

/-- C2: a run of the component that ends with a selection no record of `items`
carries.  The history loads with the record "1"; its delete button is clicked
while nothing is selected; the record is selected while the delete request is
awaited; the request succeeds.  The handler compares the deleted id with the
`selectedId` of the render it was created in (`null`), so the selection stays
on the record it has just removed. -/
theorem stale_delete_leaves_dangling_selection :
    ∃ σ, run Sys.init
        [.historyLoaded [recHello], .clickDelete 0, .clickItem 0, .deleteDone 0] = some σ ∧
      σ.view.app.selectedId = some "1" ∧ σ.view.app.items = [] ∧
      ¬ selectionValid σ.view.app := by
  refine ⟨_, rfl, rfl, rfl, ?_⟩
  intro hv
  obtain ⟨r, hr, -⟩ := hv "1" rfl
  exact absurd hr (List.not_mem_nil r)

/-- C5: a run of the component, every action on a control that is rendered and
enabled, that ends with two submissions in flight.  Recording starts; a file is
chosen with Upload Audio, which only `isUploading` disables; Stop Recording,
which nothing disables, then submits the recording while the file is still
being uploaded. -/
theorem stop_while_uploading_gives_two_in_flight :
    ∃ σ, run Sys.init [.clickStart, .micGranted, .pickFile ⟨3⟩, .clickStop ⟨5⟩] = some σ ∧
      σ.inFlight = [⟨3⟩, ⟨5⟩] ∧ σ.inFlight.length = 2 ∧ σ.view.app.isUploading = true :=
  ⟨_, rfl, rfl, rfl, rfl⟩

end Say2Text
